import Mathlib

/-!
# Analogic Memory System — shallow embedding and claim verification

A shallow embedding of the core of the Analogic Memory System
(`security.py`, `analogic_core.py`, `memory_engine.py`, `backup_system.py`)
and proofs settling the frozen specification claims.

Modelling conventions:
* Timestamps are rationals (hours / abstract instants); `NOW()` is passed in
  explicitly as a `now` argument.
* Database tables are Lean lists of row structures; the SQL statements in the
  source (`INSERT … ON CONFLICT`, `UPDATE … WHERE`, `SELECT … LIMIT`) are
  translated to the corresponding list operations with PostgreSQL's
  documented semantics.
* AES-256-GCM and PBKDF2 are external library primitives; they are modelled
  by their interface contract as an ideal authenticated cipher and an ideal
  KDF: a ciphertext determines the encrypting key and plaintext, decryption
  under any other key fails authentication, and distinct KDF salts yield
  distinct keys.  SHA-256 is likewise modelled as an ideal (collision-free)
  hash.  Everything else is translated line by line from the Python source.
* Python floats are modelled as exact rationals (for strengths, timestamps)
  or reals (for the transcendental relevance score).
-/

namespace AnalogicMemory

/-! ## security.py -/

/-- Error outcomes surfaced by the embedded operations. -/
inductive SecError where
  | authenticationError
  | validationError
  | nullData
  deriving DecidableEq

/-- Symmetric AES-256 keys.  `master` is `MASTER_KEY`; `userDerived u` is the
PBKDF2-HMAC-SHA256 subkey derived from the master key with salt `u`
(`security.py`, `derive_user_key`).  The KDF is ideal: distinct salts give
distinct keys, which the two constructors capture. -/
inductive Key where
  | master
  | userDerived (user_id : String)
  deriving DecidableEq

/-- `derive_user_key(user_id)`: PBKDF2 subkey of the master key, salt =
the user id (security.py lines 102-114). -/
def derive_user_key (user_id : String) : Key := .userDerived user_id

/-- The value `nonce + AESGCM(key).encrypt(nonce, plaintext, None)`:
a 12-byte nonce prepended to ciphertext-plus-tag.  Ideal-cipher model: the
blob records which key produced it and what the plaintext was. -/
structure EncryptedBlob (α : Type) where
  nonce : Nat
  key : Key
  plaintext : α
  deriving DecidableEq

/-- `AESGCM(key).encrypt(nonce, plaintext, None)` prefixed with the nonce. -/
def aesgcm_encrypt (key : Key) (nonce : Nat) (plaintext : α) : EncryptedBlob α :=
  ⟨nonce, key, plaintext⟩

/-- Splitting the nonce off and calling `AESGCM(key).decrypt`: succeeds with
the original plaintext exactly when the key matches, otherwise the GCM tag
check fails (`AuthenticationError` / `InvalidTag`). -/
def aesgcm_decrypt (key : Key) (blob : EncryptedBlob α) : Except SecError α :=
  if blob.key = key then .ok blob.plaintext else .error .authenticationError

/-- `encrypt(plaintext)` (security.py lines 53-61): master-key AES-GCM with a
fresh nonce; the nonce is passed explicitly here in place of
`secrets.token_bytes`. -/
def encrypt (plaintext : α) (nonce : Nat) : EncryptedBlob α :=
  aesgcm_encrypt .master nonce plaintext

/-- `decrypt(encrypted_data)` (security.py lines 64-73): master-key AES-GCM. -/
def decrypt (blob : EncryptedBlob α) : Except SecError α :=
  aesgcm_decrypt .master blob

/-- `encrypt_with_user_key(plaintext, user_id)` (security.py lines 117-123). -/
def encrypt_with_user_key (plaintext : α) (user_id : String) (nonce : Nat) :
    EncryptedBlob α :=
  aesgcm_encrypt (derive_user_key user_id) nonce plaintext

/-- `decrypt_with_user_key(encrypted_data, user_id)` (security.py
lines 126-133). -/
def decrypt_with_user_key (blob : EncryptedBlob α) (user_id : String) :
    Except SecError α :=
  aesgcm_decrypt (derive_user_key user_id) blob

/-- A SHA-256 hex digest, as an ideal (injective) hash of its input. -/
inductive Digest where
  | sha256 (content : String)
  deriving DecidableEq

/-- `hash_content(content)` (security.py lines 76-78). -/
def hash_content (content : String) : Digest := .sha256 content

/-- Python `str.strip()`: drop whitespace from both ends, modelled over the
character list. -/
def pyStrip (s : String) : String :=
  ⟨((s.data.dropWhile Char.isWhitespace).reverse.dropWhile
      Char.isWhitespace).reverse⟩

/-- Python `str.lower()`, modelled characterwise. -/
def pyLower (s : String) : String := ⟨s.data.map Char.toLower⟩

/-- `sanitize_input(text, max_length)` (security.py lines 136-143): strip
surrounding whitespace, reject when the result is longer than
`max_length`. -/
def sanitize_input (text : String) (max_length : Nat) : Except SecError String :=
  let t := pyStrip text
  if t.length > max_length then .error .validationError else .ok t

/-! ## analogic_core.py — the association graph -/

/-- One row of `memory_associations`. -/
structure AssocRow where
  id : Nat
  source_memory_id : Nat
  target_memory_id : Nat
  association_type : String
  strength : ℚ
  created_at : ℚ
  deriving DecidableEq

/-- `AnalogicCore.ASSOCIATION_TYPES` (analogic_core.py lines 28-39), as the
set of valid type names. -/
def ASSOCIATION_TYPES : List String :=
  ["related_to", "caused_by", "leads_to", "contradicts", "supports",
   "part_of", "similar_to", "opposite_of", "derived_from", "user_preference"]

/-- The unique-key predicate of `memory_associations`: the row carries the
triple (source, target, type). -/
def assocMatches (source_id target_id : Nat) (ty : String) (r : AssocRow) : Bool :=
  r.source_memory_id == source_id && r.target_memory_id == target_id &&
    r.association_type == ty

/-- `create_association` (analogic_core.py lines 41-65): reject unknown
types, clamp strength into `[0,1]`, then
`INSERT … ON CONFLICT (source, target, type) DO UPDATE SET strength`.
Returns the returned row, the updated table, and the next fresh row id. -/
def create_association (table : List AssocRow) (next_id : Nat) (now : ℚ)
    (source_id target_id : Nat) (association_type : String) (strength : ℚ) :
    Except SecError (AssocRow × List AssocRow × Nat) :=
  if association_type ∉ ASSOCIATION_TYPES then .error .validationError
  else
    let s := max 0 (min 1 strength)
    match table.find? (assocMatches source_id target_id association_type) with
    | some r =>
        .ok ({ r with strength := s },
             table.map (fun q =>
               if assocMatches source_id target_id association_type q then
                 { q with strength := s } else q),
             next_id)
    | none =>
        let r : AssocRow :=
          ⟨next_id, source_id, target_id, association_type, s, now⟩
        .ok (r, table ++ [r], next_id + 1)

/-- `strengthen_association` (analogic_core.py lines 96-110):
`UPDATE … SET strength = LEAST(1.0, strength + delta) WHERE` the triple
matches, `RETURNING` the updated row (`none` when no row matched). -/
def strengthen_association (table : List AssocRow) (source_id target_id : Nat)
    (association_type : String) (delta : ℚ) : Option AssocRow × List AssocRow :=
  let table' := table.map (fun r =>
    if assocMatches source_id target_id association_type r then
      { r with strength := min 1 (r.strength + delta) } else r)
  (table'.find? (assocMatches source_id target_id association_type), table')

/-- `decay_weak_associations` (analogic_core.py lines 112-120):
`DELETE FROM memory_associations WHERE strength < threshold`, returning the
count removed. -/
def decay_weak_associations (table : List AssocRow) (threshold : ℚ) :
    Nat × List AssocRow :=
  let kept := table.filter (fun r => ¬ r.strength < threshold)
  (table.length - kept.length, kept)

/-- All stored strengths lie in `[0, 1]`. -/
def strengthInv (table : List AssocRow) : Prop :=
  ∀ r ∈ table, 0 ≤ r.strength ∧ r.strength ≤ 1

/-! ## Claim C5 -/

/-- **C5.** For every plaintext `p` and user ids `u`, `v`: decrypting
`encrypt_with_user_key p u` with `u`'s key returns `p`; if `v ≠ u`,
decrypting it with `v`'s key fails with `AuthenticationError`. -/
theorem user_key_roundtrip_and_isolation (p : String) (u v : String) (nonce : Nat) :
    decrypt_with_user_key (encrypt_with_user_key p u nonce) u = .ok p ∧
    (v ≠ u →
      decrypt_with_user_key (encrypt_with_user_key p u nonce) v =
        .error .authenticationError) := by
  constructor
  · simp [decrypt_with_user_key, encrypt_with_user_key, aesgcm_encrypt,
      aesgcm_decrypt]
  · intro hv
    simp only [decrypt_with_user_key, encrypt_with_user_key, aesgcm_encrypt,
      aesgcm_decrypt, derive_user_key]
    rw [if_neg]
    simp only [Key.userDerived.injEq]
    exact fun h => hv h.symm

/-- Witness for C5 at concrete inputs. -/
theorem user_key_roundtrip_and_isolation_witness :
    decrypt_with_user_key (encrypt_with_user_key "the plaintext" "alice" 7) "alice" =
      .ok "the plaintext" ∧
    decrypt_with_user_key (encrypt_with_user_key "the plaintext" "alice" 7) "bob" =
      .error .authenticationError := by
  have h := user_key_roundtrip_and_isolation "the plaintext" "alice" "bob" 7
  exact ⟨h.1, h.2 (by decide)⟩

/-! ## Claim C7 -/

/-- **C7.** Creating the same (source, target, type) triple twice — with any
strengths `a` then `b` — leaves exactly one edge for that triple, whose
strength is the (clamped) second value; the repeated create is an upsert,
never an error and never a second edge.  (With `a = 0.3`, `b = 0.9` the final
strength is `0.9`.) -/
theorem association_upsert_single_edge (table : List AssocRow) (next_id : Nat)
    (now now' : ℚ) (s t : Nat) (ty : String) (a b : ℚ)
    (hty : ty ∈ ASSOCIATION_TYPES)
    (habs : ∀ r ∈ table, assocMatches s t ty r = false) :
    ∃ r1 tab1 n1 r2 tab2 n2,
      create_association table next_id now s t ty a = .ok (r1, tab1, n1) ∧
      create_association tab1 n1 now' s t ty b = .ok (r2, tab2, n2) ∧
      tab2.filter (assocMatches s t ty) = [r2] ∧
      r2.strength = max 0 (min 1 b) := by
  have hfind : table.find? (assocMatches s t ty) = none :=
    List.find?_eq_none.mpr (fun r hr => by simp [habs r hr])
  have hne : ¬ ty ∉ ASSOCIATION_TYPES := fun h => h hty
  set r1 : AssocRow := ⟨next_id, s, t, ty, max 0 (min 1 a), now⟩ with hr1
  have hmatch : assocMatches s t ty r1 = true := by simp [assocMatches, hr1]
  have h1 : create_association table next_id now s t ty a =
      .ok (r1, table ++ [r1], next_id + 1) := by
    simp [create_association, hfind, hne, hr1]
  have hfind2 : (table ++ [r1]).find? (assocMatches s t ty) = some r1 := by
    rw [List.find?_append, hfind]
    simp [hmatch]
  set r2 : AssocRow := { r1 with strength := max 0 (min 1 b) } with hr2
  have hmap : (table ++ [r1]).map (fun q =>
      if assocMatches s t ty q then { q with strength := max 0 (min 1 b) }
      else q) = table ++ [r2] := by
    rw [List.map_append]
    congr 1
    · conv_rhs => rw [← List.map_id table]
      exact List.map_congr_left (fun q hq => by simp [habs q hq])
    · simp [hmatch, hr2]
  have h2 : create_association (table ++ [r1]) (next_id + 1) now' s t ty b =
      .ok (r2, table ++ [r2], next_id + 1) := by
    simp only [create_association, hne, if_neg, hfind2, hmap]
    rfl
  refine ⟨r1, table ++ [r1], next_id + 1, r2, table ++ [r2], next_id + 1,
    h1, h2, ?_, rfl⟩
  rw [List.filter_append]
  have hmatch2 : assocMatches s t ty r2 = true := by
    simp [assocMatches, hr2, hr1]
  have : table.filter (assocMatches s t ty) = [] :=
    List.filter_eq_nil_iff.mpr (fun r hr => by simp [habs r hr])
  simp [this, hmatch2]

/-- Witness for C7: strengths 0.3 then 0.9 on an empty table leave one
`related_to` edge at strength 0.9. -/
theorem association_upsert_single_edge_witness :
    ∃ r1 tab1 n1 r2 tab2 n2,
      create_association [] 1 0 10 20 "related_to" (3/10) = .ok (r1, tab1, n1) ∧
      create_association tab1 n1 0 10 20 "related_to" (9/10) =
        .ok (r2, tab2, n2) ∧
      tab2.filter (assocMatches 10 20 "related_to") = [r2] ∧
      r2.strength = max 0 (min 1 (9/10)) := by
  exact association_upsert_single_edge [] 1 0 0 10 20 "related_to" (3/10) (9/10)
    (by decide) (by simp)

/-! ## Claim C8 -/

/-- **C8 counterexample.**  The claim says every operation keeps stored
strengths in `[0.0, 1.0]`.  Starting from a table whose single edge has
strength `0.5` (inside the invariant), `strengthen_association` with
`delta = -1` stores strength `-0.5`: `LEAST(1.0, strength + delta)` has no
lower clamp, so the operation does not preserve the invariant. -/
theorem strengthen_negative_delta_breaks_invariant :
    strengthInv [⟨1, 1, 2, "related_to", 1/2, 0⟩] ∧
    ¬ strengthInv
        (strengthen_association [⟨1, 1, 2, "related_to", 1/2, 0⟩]
          1 2 "related_to" (-1)).2 := by
  constructor
  · intro r hr
    simp only [List.mem_singleton] at hr
    subst hr
    constructor <;> norm_num
  · intro h
    have hr := h ⟨1, 1, 2, "related_to", -(1/2), 0⟩ (by
      simp [strengthen_association, assocMatches]
      norm_num)
    have := hr.1
    norm_num at this

/-- **C8 amended.**  `create_association` clamps any strength argument into
`[0, 1]` before writing and preserves the strength invariant;
`strengthen_association` never raises any strength above `1.0` whatever the
delta; and for nonnegative delta `strengthen_association` preserves the full
`[0, 1]` invariant (a negative delta can drive a strength below `0.0`). -/
theorem strength_clamped_on_write (table : List AssocRow) (next_id : Nat)
    (now : ℚ) (s t : Nat) (ty : String) (x delta : ℚ) :
    (∀ r' tab' n',
        create_association table next_id now s t ty x = .ok (r', tab', n') →
        r'.strength = max 0 (min 1 x) ∧
        (strengthInv table → strengthInv tab')) ∧
    ((∀ r ∈ table, r.strength ≤ 1) →
        ∀ r ∈ (strengthen_association table s t ty delta).2, r.strength ≤ 1) ∧
    (0 ≤ delta → strengthInv table →
        strengthInv (strengthen_association table s t ty delta).2) := by
  have hclamp : ∀ y : ℚ, 0 ≤ max 0 (min 1 y) ∧ max 0 (min 1 y) ≤ 1 := by
    intro y
    constructor
    · exact le_max_left 0 _
    · rw [max_le_iff]
      exact ⟨by norm_num, min_le_left 1 y⟩
  refine ⟨?_, ?_, ?_⟩
  · intro r' tab' n' hok
    unfold create_association at hok
    by_cases hty : ty ∉ ASSOCIATION_TYPES
    · simp [hty] at hok
    · simp only [hty, if_false] at hok
      rcases hfind : table.find? (assocMatches s t ty) with _ | r
      · rw [hfind] at hok
        simp only [Except.ok.injEq, Prod.mk.injEq] at hok
        obtain ⟨hr', htab', _⟩ := hok
        refine ⟨by rw [← hr'], ?_⟩
        intro hinv q hq
        rw [← htab'] at hq
        rcases List.mem_append.mp hq with hq | hq
        · exact hinv q hq
        · simp only [List.mem_singleton] at hq
          subst hq
          exact hclamp x
      · rw [hfind] at hok
        simp only [Except.ok.injEq, Prod.mk.injEq] at hok
        obtain ⟨hr', htab', _⟩ := hok
        refine ⟨by rw [← hr'], ?_⟩
        intro hinv q hq
        rw [← htab'] at hq
        obtain ⟨p, hp, hpq⟩ := List.mem_map.mp hq
        by_cases hm : assocMatches s t ty p
        · rw [if_pos hm] at hpq
          rw [← hpq]
          exact hclamp x
        · rw [if_neg hm] at hpq
          rw [← hpq]
          exact hinv p hp
  · intro hub r hr
    obtain ⟨p, hp, hpq⟩ := List.mem_map.mp hr
    by_cases hm : assocMatches s t ty p
    · rw [if_pos hm] at hpq
      rw [← hpq]
      exact min_le_left 1 _
    · rw [if_neg hm] at hpq
      rw [← hpq]
      exact hub p hp
  · intro hdelta hinv r hr
    obtain ⟨p, hp, hpq⟩ := List.mem_map.mp hr
    by_cases hm : assocMatches s t ty p
    · rw [if_pos hm] at hpq
      rw [← hpq]
      refine ⟨?_, min_le_left 1 _⟩
      have h0 : (0:ℚ) ≤ p.strength + delta :=
        add_nonneg (hinv p hp).1 hdelta
      exact le_min (by norm_num) h0
    · rw [if_neg hm] at hpq
      rw [← hpq]
      exact hinv p hp

/-- Witness for C8 amended: a create with strength 1.5 stores 1.0; a
strengthen with delta 100 on a table at strength 0.5 keeps every strength
at most 1. -/
theorem strength_clamped_on_write_witness :
    ((⟨1, 1, 2, "related_to", 1, 0⟩ : AssocRow).strength = max 0 (min 1 (3/2)) ∧
      (strengthInv [] →
        strengthInv [⟨1, 1, 2, "related_to", 1, 0⟩])) ∧
    ((∀ r ∈ [(⟨1, 1, 2, "related_to", 1/2, 0⟩ : AssocRow)], r.strength ≤ 1) →
      ∀ r ∈ (strengthen_association [⟨1, 1, 2, "related_to", 1/2, 0⟩]
          1 2 "related_to" 100).2, r.strength ≤ 1) := by
  have h := strength_clamped_on_write [] 1 0 1 2 "related_to" (3/2) 100
  have h' := strength_clamped_on_write [⟨1, 1, 2, "related_to", 1/2, 0⟩]
    1 0 1 2 "related_to" (3/2) 100
  have hone : max (0:ℚ) (min 1 (3/2)) = 1 := by norm_num
  have hc : create_association [] 1 0 1 2 "related_to" (3/2) =
      .ok (⟨1, 1, 2, "related_to", 1, 0⟩, [⟨1, 1, 2, "related_to", 1, 0⟩], 2) := by
    simp [create_association, ASSOCIATION_TYPES, hone]
  exact ⟨h.1 _ _ _ hc, h'.2.1⟩

/-! ## backup_system.py — the backup scheduler -/

/-- Backup tiers. -/
inductive Tier where
  | primary
  | secondary
  | archive
  deriving DecidableEq

/-- One iteration of the `while True` loop of `schedule_backups`
(backup_system.py lines 376-405), hand-compiled with its `try`/`except`:
run `primary` (which may raise), increment `hourly_count`, run `secondary`
when the counter is divisible by 6, run `archive` and reset the counter
when divisible by 24; any raise jumps to the `except` (logged) and the loop
proceeds to the next tick.  Returns the tiers whose run was started this
tick and the counter afterwards. -/
def schedule_tick (hourly_count : Nat)
    (fail_primary fail_secondary fail_archive : Bool) : List Tier × Nat :=
  if fail_primary then ([.primary], hourly_count)
  else
    let c := hourly_count + 1
    if c % 6 = 0 then
      if fail_secondary then ([.primary, .secondary], c)
      else if c % 24 = 0 then
        if fail_archive then ([.primary, .secondary, .archive], c)
        else ([.primary, .secondary, .archive], 0)
      else ([.primary, .secondary], c)
    else if c % 24 = 0 then
      if fail_archive then ([.primary, .archive], c)
      else ([.primary, .archive], 0)
    else ([.primary], c)

/-- The loop run for a given schedule of per-tick failure flags: the list of
attempted-tier lists, one per tick, and the final counter.  The counter
starts at 0 (`hourly_count = 0` in `schedule_backups`). -/
def schedule_run (hourly_count : Nat) :
    List (Bool × Bool × Bool) → List (List Tier) × Nat
  | [] => ([], hourly_count)
  | f :: fs =>
      let step := schedule_tick hourly_count f.1 f.2.1 f.2.2
      let rest := schedule_run step.2 fs
      (step.1 :: rest.1, rest.2)

/-- The counter after `n` failure-free ticks from a fresh scheduler. -/
def counterAfter : Nat → Nat
  | 0 => 0
  | n + 1 => (schedule_tick (counterAfter n) false false false).2

/-- The tiers attempted on the `k`-th failure-free tick (1-based). -/
def attemptsAt (k : Nat) : List Tier :=
  (schedule_tick (counterAfter (k - 1)) false false false).1

/-- In a failure-free run the counter after `n` ticks is `n % 24`. -/
theorem counterAfter_eq_mod (n : Nat) : counterAfter n = n % 24 := by
  induction n with
  | zero => rfl
  | succ n ih =>
      simp only [counterAfter, ih, schedule_tick, Bool.false_eq_true,
        if_false]
      split
      · split
        · omega
        · omega
      · split
        · omega
        · omega

/-! ## Claim C9 -/

/-- **C9.** On every tick the scheduler runs a primary backup (whatever
fails); on every 6th failure-free tick a secondary backup additionally
runs; on every 24th an archive backup additionally runs and the counter
resets to zero; and with any per-tick failure schedule the loop still
executes every tick, each one attempting a primary backup. -/
theorem backup_schedule_cadence (k : Nat) (hk : 1 ≤ k) :
    (∀ c fp fs fa, Tier.primary ∈ (schedule_tick c fp fs fa).1) ∧
    (Tier.secondary ∈ attemptsAt k ↔ k % 6 = 0) ∧
    (Tier.archive ∈ attemptsAt k ↔ k % 24 = 0) ∧
    (k % 24 = 0 → counterAfter k = 0) ∧
    (∀ c fails, (schedule_run c fails).1.length = fails.length ∧
      ∀ att ∈ (schedule_run c fails).1, Tier.primary ∈ att) := by
  have hprim : ∀ c fp fs fa, Tier.primary ∈ (schedule_tick c fp fs fa).1 := by
    intro c fp fs fa
    cases fp <;> cases fs <;> cases fa <;>
      simp only [schedule_tick, if_true, if_false, Bool.false_eq_true] <;>
      first
        | simp
        | (split <;> (try split) <;> simp)
  have hatt : attemptsAt k =
      (schedule_tick ((k - 1) % 24) false false false).1 := by
    simp [attemptsAt, counterAfter_eq_mod]
  refine ⟨hprim, ?_, ?_, ?_, ?_⟩
  · rw [hatt]
    simp only [schedule_tick, Bool.false_eq_true, if_false]
    split
    · split
      · simp only [List.mem_cons]
        constructor
        · intro _; omega
        · intro _; simp
      · simp only [List.mem_cons]
        constructor
        · intro _; omega
        · intro _; simp
    · split
      · omega
      · simp only [List.mem_singleton]
        constructor
        · intro h; cases h
        · intro h; omega
  · rw [hatt]
    simp only [schedule_tick, Bool.false_eq_true, if_false]
    split
    · split
      · simp only [List.mem_cons]
        constructor
        · intro _; omega
        · intro _; simp
      · simp only [List.mem_cons, List.mem_singleton]
        constructor
        · intro h
          rcases h with h | h | h <;> cases h
        · intro h; omega
    · split
      · omega
      · simp only [List.mem_singleton]
        constructor
        · intro h; cases h
        · intro h; omega
  · intro h
    rw [counterAfter_eq_mod]
    exact h
  · intro c fails
    induction fails generalizing c with
    | nil => exact ⟨rfl, by intro att hatt'; cases hatt'⟩
    | cons f fs ih =>
        refine ⟨by simp [schedule_run, (ih _).1], ?_⟩
        intro att hmem
        simp only [schedule_run, List.mem_cons] at hmem
        rcases hmem with h | h
        · subst h; exact hprim _ _ _ _
        · exact (ih _).2 att h

/-- Witness for C9 at tick 24: primary, secondary and archive all attempted,
counter reset to zero. -/
theorem backup_schedule_cadence_witness :
    (Tier.secondary ∈ attemptsAt 24 ↔ 24 % 6 = 0) ∧
    (Tier.archive ∈ attemptsAt 24 ↔ 24 % 24 = 0) ∧
    counterAfter 24 = 0 := by
  have h := backup_schedule_cadence 24 (by decide)
  exact ⟨h.2.1, h.2.2.1, h.2.2.2.1 (by decide)⟩

/-! ## analogic_core.py — relevance scoring -/

/-- Python's substring test `needle in haystack`. -/
def strContains (haystack needle : String) : Bool :=
  decide (needle.data <:+: haystack.data)

/-- Python `round(x, 4)`.  (Python rounds exact halves to even while
Mathlib's `round` rounds them up; no value in this development lands on an
exact half at the fourth decimal, and the same `round4` is used on both the
code side and the claim-formula side, so the two sides are compared under
one rounding convention.) -/
noncomputable def round4 (x : ℝ) : ℝ := ((round (x * 10000) : ℤ) : ℝ) / 10000

/-- `AnalogicCore.compute_relevance_score` (analogic_core.py lines 159-188):
return `0.0` outright when the content or the keyword list is empty;
otherwise combine keyword overlap, `log1p`-normalised access frequency and
exponentially decayed recency, clamp at 1 and round to 4 decimals. -/
noncomputable def compute_relevance_score (query_keywords : List String)
    (memory_content : String) (access_count : Nat) (recency_hours : ℝ) : ℝ :=
  if memory_content = "" ∨ query_keywords = [] then 0
  else
    let content_lower := pyLower memory_content
    let keywords_lower := query_keywords.map pyLower
    let matched :=
      (keywords_lower.filter (fun kw => strContains content_lower kw)).length
    let keyword_score : ℝ := (matched : ℝ) / (max keywords_lower.length 1 : ℕ)
    let freq_score : ℝ := Real.log (1 + (access_count : ℝ)) / Real.log (1 + 100)
    let recency_score : ℝ := Real.exp (-recency_hours / 24)
    round4 (min 1
      (0.50 * keyword_score + 0.20 * freq_score + 0.30 * recency_score))

/-- The scoring formula exactly as claim C3 words it: `k` is the keyword
overlap and is `0` when either side is empty, `f = log(1+a)/log(101)`,
`r = exp(-h/24)`, and the score is `round(min(1.0, 0.50*k+0.20*f+0.30*r), 4)`
— the frequency and recency terms still contribute when `k` is zeroed. -/
noncomputable def relevance_score_claim (query_keywords : List String)
    (memory_content : String) (access_count : Nat) (recency_hours : ℝ) : ℝ :=
  let k : ℝ :=
    if memory_content = "" ∨ query_keywords = [] then 0
    else (((query_keywords.map pyLower).filter
        (fun kw => strContains (pyLower memory_content) kw)).length : ℝ) /
      (query_keywords.length : ℕ)
  let f : ℝ := Real.log (1 + (access_count : ℝ)) / Real.log 101
  let r : ℝ := Real.exp (-recency_hours / 24)
  round4 (min 1 (0.50 * k + 0.20 * f + 0.30 * r))

/-! ## Claim C3 -/

/-- **C3 counterexample.**  With keyword list `["a"]`, empty content, access
count 0 and recency 0, the claim's formula gives
`round(min(1, 0.5*0 + 0.2*0 + 0.3*1), 4) = 0.3`, but
`compute_relevance_score` returns `0.0`: the code zeroes the whole score as
soon as either side is empty, not just the keyword component. -/
theorem relevance_score_empty_content_cex :
    compute_relevance_score ["a"] "" 0 0 = 0 ∧
    relevance_score_claim ["a"] "" 0 0 = 3 / 10 := by
  constructor
  · simp [compute_relevance_score]
  · have h03 : (0.30 : ℝ) = 3 / 10 := by norm_num
    have hmin : min (1:ℝ) (3/10) = 3/10 := min_eq_right (by norm_num)
    have harg : relevance_score_claim ["a"] "" 0 0 = round4 (3/10) := by
      rw [relevance_score_claim]
      simp [Real.exp_zero, Real.log_one, h03, hmin]
    rw [harg, round4]
    have h3000 : (3 / 10 : ℝ) * 10000 = ((3000 : ℤ) : ℝ) := by norm_num
    rw [h3000, round_intCast]
    norm_num

/-- **C3 amended.**  When both the keyword list and the content are
nonempty, the relevance score equals the claim's formula (`k` = matching
keywords over total keywords, `f = log(1+a)/log(101)`, `r = exp(-h/24)`,
weighted 0.50/0.20/0.30, clamped at 1, rounded to 4 decimals); when either
is empty the code returns `0.0` outright, frequency and recency included. -/
theorem relevance_score_formula (query_keywords : List String)
    (memory_content : String) (access_count : Nat) (recency_hours : ℝ) :
    (memory_content = "" ∨ query_keywords = [] →
      compute_relevance_score query_keywords memory_content access_count
        recency_hours = 0) ∧
    (memory_content ≠ "" → query_keywords ≠ [] →
      compute_relevance_score query_keywords memory_content access_count
        recency_hours =
      relevance_score_claim query_keywords memory_content access_count
        recency_hours) := by
  constructor
  · intro h
    simp [compute_relevance_score, h]
  · intro hc hq
    have hcond : ¬ (memory_content = "" ∨ query_keywords = []) := by
      rintro (h | h)
      · exact hc h
      · exact hq h
    have hlen : query_keywords.length ≠ 0 := by
      intro h
      exact hq (List.length_eq_zero.mp h)
    have hmax : max (query_keywords.map pyLower).length 1 =
        query_keywords.length := by
      rw [List.length_map]
      omega
    have hlog : Real.log (1 + (100 : ℝ)) = Real.log 101 := by norm_num
    rw [compute_relevance_score, relevance_score_claim, if_neg hcond,
      if_neg hcond]
    simp only [hmax, hlog]

/-- Witness for C3 amended at keywords `["tea"]`, content `"tea"`. -/
theorem relevance_score_formula_witness :
    compute_relevance_score ["tea"] "tea" 0 0 =
      relevance_score_claim ["tea"] "tea" 0 0 := by
  exact (relevance_score_formula ["tea"] "tea" 0 0).2 (by decide) (by decide)

/-! ## memory_engine.py — memory entries -/

/-- One row of `memory_entries`. -/
structure MemoryRow where
  id : Nat
  user_id : String
  session_id : Option String
  memory_type : String
  scope : String
  content_encrypted : EncryptedBlob String
  content_hash : Digest
  tags : List String
  relevance_score : ℚ
  access_count : Nat
  created_at : ℚ
  updated_at : ℚ
  expires_at : Option ℚ
  is_active : Bool
  deriving DecidableEq

/-- The state the memory engine and the analogic core share: the
`memory_entries` and `memory_associations` tables plus fresh-id counters. -/
structure MemDb where
  mems : List MemoryRow
  assocs : List AssocRow
  next_mem_id : Nat
  next_assoc_id : Nat
  deriving DecidableEq

/-- `len(set(a) & set(b))` on tag lists: the number of distinct shared
tags. -/
def sharedTagCount (a b : List String) : Nat :=
  ((a.filter (fun t => b.contains t)).dedup).length

/-- Python `round(x, 3)` (same half-rounding caveat as `round4`). -/
def round3 (x : ℚ) : ℚ := ((round (x * 1000) : ℤ) : ℚ) / 1000

/-- The dedup predicate of `store_memory`'s duplicate query
(`WHERE user_id = $1 AND content_hash = $2 AND is_active = TRUE`). -/
def dupMatches (user_id : String) (h : Digest) (r : MemoryRow) : Bool :=
  r.user_id == user_id && r.content_hash == h && r.is_active

/-- `AnalogicCore.auto_associate` (analogic_core.py lines 190-228): scan up
to 50 other active entries of the same user sharing a tag; for each, create
a `related_to` edge of strength `|shared| / max(|tags|, |row.tags|, 1)`
(rounded to 3 decimals) when at least `0.1`; individual failures are caught
and skipped.  Returns the number of associations created. -/
def autoAssocStep (new_memory_id : Nat) (tags : List String) (now : ℚ)
    (acc : Nat × MemDb) (row : MemoryRow) : Nat × MemDb :=
  let strength : ℚ := (sharedTagCount row.tags tags : ℚ) /
    ((max (max tags.length row.tags.length) 1 : Nat) : ℚ)
  if 1/10 ≤ strength then
    match create_association acc.2.assocs acc.2.next_assoc_id now
        new_memory_id row.id "related_to" (round3 strength) with
    | .ok (_, table', next') =>
        (acc.1 + 1, { acc.2 with assocs := table', next_assoc_id := next' })
    | .error _ => acc
  else acc

def auto_associate (db : MemDb) (new_memory_id : Nat) (user_id : String)
    (content : String) (tags : List String) (now : ℚ) : Nat × MemDb :=
  if tags = [] then (0, db)
  else
    let existing := (db.mems.filter (fun r =>
      r.user_id == user_id && r.id != new_memory_id && r.is_active &&
        r.tags.any (fun t => tags.contains t))).take 50
    existing.foldl (autoAssocStep new_memory_id tags now) (0, db)

/-- The result `store_memory` reports: an existing entry's id with status
`duplicate`, or the new entry's metadata (with the auto-association count
when tags were present). -/
inductive StoreResult where
  | duplicate (id : Nat)
  | stored (id : Nat) (associations_created : Option Nat)
  deriving DecidableEq

/-- `MemoryEngine.store_memory` (memory_engine.py lines 40-98): sanitize
content (max 50000) and user id (max 255), compute the expiry for
`short_term` scope (`ttl_hours or 24`), encrypt with the user's derived
key, hash the plaintext, return `duplicate` without writing when an active
entry with the same (user, hash) exists, otherwise insert and — when tags
are nonempty — run the auto-association pass. -/
def store_memory (db : MemDb) (now : ℚ) (nonce : Nat) (user_id content : String)
    (memory_type scope : String) (session_id : Option String)
    (tags : List String) (ttl_hours : Option Nat) :
    Except SecError (StoreResult × MemDb) :=
  match sanitize_input content 50000, sanitize_input user_id 255 with
  | .error e, _ => .error e
  | .ok _, .error e => .error e
  | .ok content, .ok user_id =>
    let hours : Nat := match ttl_hours with
      | none => 24
      | some h => if h = 0 then 24 else h
    let expires_at : Option ℚ :=
      if scope = "short_term" then some (now + (hours : ℚ)) else none
    let content_encrypted := encrypt_with_user_key content user_id nonce
    let content_hash := hash_content content
    match db.mems.find? (dupMatches user_id content_hash) with
    | some existing => .ok (.duplicate existing.id, db)
    | none =>
        let row : MemoryRow :=
          ⟨db.next_mem_id, user_id, session_id, memory_type, scope,
           content_encrypted, content_hash, tags, 1, 0, now, now,
           expires_at, true⟩
        let db1 : MemDb :=
          { db with
            mems := db.mems ++ [row]
            next_mem_id := db.next_mem_id + 1 }
        if tags = [] then .ok (.stored row.id none, db1)
        else
          let ac := auto_associate db1 row.id user_id content tags now
          .ok (.stored row.id (some ac.1), ac.2)

/-- `MemoryEngine.get_memory` (memory_engine.py lines 205-231): fetch the
row owned by the requesting user (`WHERE id = $1 AND user_id = $2 AND
is_active = TRUE`), decrypt with that user's derived key; `none` when
absent. -/
def get_memory (db : MemDb) (memory_id : Nat) (user_id : String) :
    Option (Except SecError (String × MemoryRow)) :=
  match db.mems.find? (fun r =>
      r.id == memory_id && r.user_id == user_id && r.is_active) with
  | none => none
  | some row =>
      match decrypt_with_user_key row.content_encrypted user_id with
      | .ok content => some (.ok (content, row))
      | .error e => some (.error e)

/-- The auto-association pass touches only the association table: the
memory rows are unchanged. -/
theorem auto_associate_mems (db : MemDb) (new_memory_id : Nat)
    (user_id content : String) (tags : List String) (now : ℚ) :
    (auto_associate db new_memory_id user_id content tags now).2.mems =
      db.mems := by
  have hstep : ∀ acc row,
      (autoAssocStep new_memory_id tags now acc row).2.mems = acc.2.mems := by
    intro acc row
    unfold autoAssocStep
    dsimp only
    split
    · split <;> rfl
    · rfl
  unfold auto_associate
  split
  · rfl
  · generalize ((db.mems.filter _).take 50) = l
    have hfold : ∀ (l : List MemoryRow) (acc : Nat × MemDb),
        (l.foldl (autoAssocStep new_memory_id tags now) acc).2.mems =
          acc.2.mems := by
      intro l
      induction l with
      | nil => intro acc; rfl
      | cons r l ih =>
          intro acc
          rw [List.foldl_cons, ih, hstep]
    exact hfold l (0, db)

/-! ## Claim C6 -/

/-- **C6.** When an active entry with the same (user, content-hash) already
exists, a second store of that content for the same user returns a
`duplicate` result and leaves the database unchanged (no row inserted);
a store of the same content by a different user `v` — with no active entry
of `v`'s own for that hash — is unaffected by the first user's entry and
inserts a new row. -/
theorem store_memory_dedup (db : MemDb) (now now' : ℚ) (nonce nonce' : Nat)
    (u v c : String) (mt sc : String) (sid : Option String)
    (tags : List String) (ttl : Option Nat) (c' u' v' : String)
    (hc : sanitize_input c 50000 = .ok c')
    (hu : sanitize_input u 255 = .ok u')
    (hv : sanitize_input v 255 = .ok v')
    (hdup : ∃ r ∈ db.mems, r.user_id = u' ∧ r.content_hash = hash_content c' ∧
      r.is_active = true)
    (hfree : ∀ r ∈ db.mems, r.user_id = v' →
      r.content_hash = hash_content c' → r.is_active = false) :
    (∃ i, store_memory db now nonce u c mt sc sid tags ttl =
      .ok (.duplicate i, db)) ∧
    (∃ i n db', store_memory db now' nonce' v c mt sc sid tags ttl =
      .ok (.stored i n, db') ∧ db'.mems.length = db.mems.length + 1) := by
  constructor
  · obtain ⟨r, hr, h1, h2, h3⟩ := hdup
    have hsome : (db.mems.find? (dupMatches u' (hash_content c'))).isSome := by
      rw [List.find?_isSome]
      exact ⟨r, hr, by simp [dupMatches, h1, h2, h3]⟩
    obtain ⟨r', hr'⟩ := Option.isSome_iff_exists.mp hsome
    refine ⟨r'.id, ?_⟩
    simp only [store_memory, hc, hu, hr']
  · have hnone : db.mems.find? (dupMatches v' (hash_content c')) = none := by
      rw [List.find?_eq_none]
      intro r hr hmatch
      simp only [dupMatches, Bool.and_eq_true, beq_iff_eq] at hmatch
      obtain ⟨⟨h1, h2⟩, h3⟩ := hmatch
      rw [hfree r hr h1 h2] at h3
      cases h3
    simp only [store_memory, hc, hv, hnone]
    by_cases htags : tags = []
    · subst htags
      rw [if_pos rfl]
      refine ⟨db.next_mem_id, none, _, rfl, ?_⟩
      simp
    · simp only [if_neg htags]
      refine ⟨db.next_mem_id, some _, _, rfl, ?_⟩
      rw [auto_associate_mems]
      simp

/-- Witness for C6: user `alice` already holds an active entry hashing
`"tea"`; re-storing `"tea"` for `alice` reports `duplicate` and changes
nothing, while storing `"tea"` for `bob` inserts a row. -/
theorem store_memory_dedup_witness :
    (∃ i, store_memory
        ⟨[⟨1, "alice", none, "general", "long_term",
            ⟨0, .userDerived "alice", "tea"⟩, .sha256 "tea", [], 1, 0, 0, 0,
            none, true⟩], [], 2, 1⟩ 0 0 "alice" "tea" "general" "long_term"
        none [] none =
      .ok (.duplicate i,
        ⟨[⟨1, "alice", none, "general", "long_term",
            ⟨0, .userDerived "alice", "tea"⟩, .sha256 "tea", [], 1, 0, 0, 0,
            none, true⟩], [], 2, 1⟩)) ∧
    (∃ i n db', store_memory
        ⟨[⟨1, "alice", none, "general", "long_term",
            ⟨0, .userDerived "alice", "tea"⟩, .sha256 "tea", [], 1, 0, 0, 0,
            none, true⟩], [], 2, 1⟩ 0 0 "bob" "tea" "general" "long_term"
        none [] none =
      .ok (.stored i n, db') ∧ db'.mems.length = 1 + 1) := by
  exact store_memory_dedup
    ⟨[⟨1, "alice", none, "general", "long_term",
        ⟨0, .userDerived "alice", "tea"⟩, .sha256 "tea", [], 1, 0, 0, 0,
        none, true⟩], [], 2, 1⟩ 0 0 0 0 "alice" "bob" "tea" "general"
    "long_term" none [] none "tea" "alice" "bob" rfl rfl rfl
    ⟨⟨1, "alice", none, "general", "long_term",
        ⟨0, .userDerived "alice", "tea"⟩, .sha256 "tea", [], 1, 0, 0, 0,
        none, true⟩, by simp, rfl, rfl, rfl⟩
    (by
      intro r hr h1 h2
      simp only [List.mem_singleton] at hr
      subst hr
      exact absurd h1 (by decide))

/-! ## memory_engine.py — context sessions -/

/-- The context document a session stores
(`json.dumps({"messages": [...], "user_id": ...})`); JSON serialization is
modelled structurally. -/
structure ContextData where
  messages : List String
  user_id : String
  deriving DecidableEq

/-- One row of `context_sessions`.  `context_data_encrypted = none` models a
NULL column (a row inserted without the column). -/
structure SessionRow where
  id : Nat
  user_id : String
  session_id : String
  context_data_encrypted : Option (EncryptedBlob ContextData)
  message_count : Nat
  started_at : ℚ
  last_active_at : ℚ
  is_active : Bool
  deriving DecidableEq

/-- `MemoryEngine.create_session` (memory_engine.py lines 257-273): encrypt
the initial context with the module-level `encrypt` — i.e. the master key —
then `INSERT … ON CONFLICT (session_id) DO UPDATE SET last_active_at =
NOW() RETURNING …`. -/
def create_session (table : List SessionRow) (next_id : Nat) (now : ℚ)
    (nonce : Nat) (user_id session_id : String) :
    SessionRow × List SessionRow :=
  let initial_context : ContextData := ⟨[], user_id⟩
  let encrypted_context := encrypt initial_context nonce
  match table.find? (fun r => r.session_id == session_id) with
  | some r =>
      ({ r with last_active_at := now },
       table.map (fun q =>
         if q.session_id == session_id then { q with last_active_at := now }
         else q))
  | none =>
      let r : SessionRow :=
        ⟨next_id, user_id, session_id, some encrypted_context, 0, now, now,
         true⟩
      (r, table ++ [r])

/-- `MemoryEngine.update_session_context` (memory_engine.py lines 275-290):
re-encrypt the replacement context with the module-level `encrypt` (master
key) and `UPDATE … SET context_data_encrypted, message_count + 1,
last_active_at WHERE session_id = $2 AND is_active = TRUE`; the returned
Bool is Python's `result.split()[-1] == "1"` (exactly one row updated). -/
def update_session_context (table : List SessionRow) (nonce : Nat) (now : ℚ)
    (session_id : String) (context_data : ContextData) :
    Bool × List SessionRow :=
  let encrypted := encrypt context_data nonce
  let touched := fun (r : SessionRow) => r.session_id == session_id && r.is_active
  ((table.filter touched).length == 1,
   table.map (fun r =>
     if touched r then
       { r with
         context_data_encrypted := some encrypted
         message_count := r.message_count + 1
         last_active_at := now }
     else r))

/-- What `get_session_context` returns on success: the decrypted context
document with the row's `message_count` patched in. -/
structure SessionContext where
  context : ContextData
  message_count : Nat
  deriving DecidableEq

/-- `MemoryEngine.get_session_context` (memory_engine.py lines 292-304):
fetch the active row by session key and decrypt its context with the
module-level `decrypt` (master key); `none` when absent, an error value
when the blob is NULL (`bytes(None)` raises) or fails authentication. -/
def get_session_context (table : List SessionRow) (session_id : String) :
    Option (Except SecError SessionContext) :=
  match table.find? (fun r => r.session_id == session_id && r.is_active) with
  | none => none
  | some row =>
      match row.context_data_encrypted with
      | none => some (.error .nullData)
      | some blob =>
          match decrypt blob with
          | .ok ctx => some (.ok ⟨ctx, row.message_count⟩)
          | .error e => some (.error e)

/-! ## Claim C2 -/

/-- **C2 counterexample.**  Creating a session for user `"alice"` stores a
context blob encrypted under the master key, which is *not* the key derived
from `"alice"`: session-context fields are not written with the owning
user's derived key, contradicting the claim that every encrypted field is. -/
theorem session_context_not_user_key_cex :
    ∃ blob, ((create_session [] 1 0 0 "alice" "s1").1).context_data_encrypted
        = some blob ∧
      blob.key = Key.master ∧ blob.key ≠ derive_user_key "alice" := by
  refine ⟨⟨0, Key.master, ⟨[], "alice"⟩⟩, rfl, rfl, by decide⟩

/-- **C2 amended.**  Memory content is written and read with the owning
user's derived key (`encrypt_with_user_key`/`decrypt_with_user_key`), but
session context is written and read with the master key on every path:
`store_memory` encrypts the new row's content under `derive_user_key` of
the sanitized user id and that content decrypts with the same user key;
`create_session` and `update_session_context` encrypt context blobs under
`Key.master` (not the owner's derived key); and `get_session_context`
successfully decrypts exactly such master-key blobs. -/
theorem encrypted_field_key_usage (db : MemDb) (now : ℚ) (nonce : Nat)
    (u c mt sc : String) (sid : Option String) (tags : List String)
    (ttl : Option Nat) (c' u' : String) (table : List SessionRow)
    (next_id : Nat) (snow : ℚ) (snonce : Nat) (suser skey : String)
    (ctx : ContextData)
    (hc : sanitize_input c 50000 = .ok c')
    (hu : sanitize_input u 255 = .ok u') :
    (∀ i n db',
      store_memory db now nonce u c mt sc sid tags ttl = .ok (.stored i n, db') →
      ∃ row, db'.mems = db.mems ++ [row] ∧
        row.content_encrypted.key = derive_user_key u' ∧
        decrypt_with_user_key row.content_encrypted u' = .ok c') ∧
    (table.find? (fun r => r.session_id == skey) = none →
      ∃ row, (create_session table next_id snow snonce suser skey).2 =
          table ++ [row] ∧
        ∃ blob, row.context_data_encrypted = some blob ∧
          blob.key = Key.master ∧ blob.key ≠ derive_user_key suser ∧
          decrypt blob = .ok ⟨[], suser⟩) ∧
    (∀ r ∈ (update_session_context table snonce snow skey ctx).2,
      r ∈ table ∨ ∃ blob, r.context_data_encrypted = some blob ∧
        blob.key = Key.master) ∧
    (∀ row blob,
      table.find? (fun r => r.session_id == skey && r.is_active) = some row →
      row.context_data_encrypted = some blob → blob.key = Key.master →
      get_session_context table skey =
        some (.ok ⟨blob.plaintext, row.message_count⟩)) := by
  refine ⟨?_, ?_, ?_, ?_⟩
  · intro i n db' h
    simp only [store_memory, hc, hu] at h
    rcases hfind : db.mems.find? (dupMatches u' (hash_content c')) with _ | r
    · rw [hfind] at h
      by_cases htags : tags = []
      · subst htags
        rw [if_pos rfl] at h
        simp only [Except.ok.injEq, Prod.mk.injEq] at h
        obtain ⟨_, hdb'⟩ := h
        subst hdb'
        exact ⟨_, rfl, rfl, by
          simp [decrypt_with_user_key, encrypt_with_user_key, aesgcm_encrypt,
            aesgcm_decrypt]⟩
      · rw [if_neg htags] at h
        simp only [Except.ok.injEq, Prod.mk.injEq] at h
        obtain ⟨_, hdb'⟩ := h
        subst hdb'
        rw [auto_associate_mems]
        exact ⟨_, rfl, rfl, by
          simp [decrypt_with_user_key, encrypt_with_user_key, aesgcm_encrypt,
            aesgcm_decrypt]⟩
    · rw [hfind] at h
      simp at h
  · intro hfind
    rw [create_session, hfind]
    refine ⟨_, rfl, ⟨snonce, Key.master, ⟨[], suser⟩⟩, rfl, rfl,
      fun hk => Key.noConfusion hk, ?_⟩
    simp [decrypt, aesgcm_decrypt]
  · intro r hr
    simp only [update_session_context] at hr
    obtain ⟨p, hp, hpr⟩ := List.mem_map.mp hr
    by_cases hm : p.session_id == skey && p.is_active
    · rw [if_pos hm] at hpr
      right
      rw [← hpr]
      exact ⟨⟨snonce, Key.master, ctx⟩, rfl, rfl⟩
    · rw [if_neg hm] at hpr
      left
      rw [← hpr]
      exact hp
  · intro row blob hfind hblob hkey
    have hdec : decrypt blob = .ok blob.plaintext := by
      simp [decrypt, aesgcm_decrypt, hkey]
    simp [get_session_context, hfind, hblob, hdec]

/-- Witness for C2 amended: storing `"tea"` for `"alice"` and creating a
fresh session for `"alice"`, at concrete inputs. -/
theorem encrypted_field_key_usage_witness :
    (∃ row, (⟨[⟨1, "alice", none, "general", "long_term",
          ⟨0, .userDerived "alice", "tea"⟩, .sha256 "tea", [], 1, 0, 0, 0,
          none, true⟩], [], 2, 1⟩ : MemDb).mems = [] ++ [row] ∧
        row.content_encrypted.key = derive_user_key "alice" ∧
        decrypt_with_user_key row.content_encrypted "alice" = .ok "tea") ∧
    (∃ row, (create_session [] 1 0 0 "alice" "s1").2 = [] ++ [row] ∧
      ∃ blob, row.context_data_encrypted = some blob ∧
        blob.key = Key.master ∧ blob.key ≠ derive_user_key "alice" ∧
        decrypt blob = .ok ⟨[], "alice"⟩) := by
  have h := encrypted_field_key_usage (⟨[], [], 1, 1⟩ : MemDb) 0 0 "alice"
    "tea" "general" "long_term" none [] none "tea" "alice" [] 1 0 0 "alice"
    "s1" ⟨[], "alice"⟩ rfl rfl
  constructor
  · have hs := h.1 1 none
      ⟨[⟨1, "alice", none, "general", "long_term",
          ⟨0, .userDerived "alice", "tea"⟩, .sha256 "tea", [], 1, 0, 0, 0,
          none, true⟩], [], 2, 1⟩ rfl
    exact hs
  · exact h.2.1 rfl

/-! ## backup_system.py — export, import and restore -/

/-- The serialized per-session record of `_export_data` (backup_system.py
line 159): `SELECT id, user_id, session_id, message_count, started_at FROM
context_sessions` — the encrypted context column is not selected. -/
structure ExportedSession where
  id : Nat
  user_id : String
  session_id : String
  message_count : Nat
  started_at : ℚ
  deriving DecidableEq

/-- The session part of `_export_data`: one exported record per row, built
from the five selected columns only. -/
def export_session (r : SessionRow) : ExportedSession :=
  ⟨r.id, r.user_id, r.session_id, r.message_count, r.started_at⟩

/-- A serialized memory-entry record as `_import_memories` reads it back:
`content_encrypted = some blob` models the tagged `__bytes__` wrapper,
`none` models any other JSON value (which makes the importer `continue`). -/
structure BackupMemoryEntry where
  id : Nat
  user_id : String
  session_id : Option String
  memory_type : String
  scope : String
  content_encrypted : Option (EncryptedBlob String)
  content_hash : Digest
  tags : List String
  relevance_score : ℚ
  access_count : Nat
  created_at : ℚ
  expires_at : Option ℚ
  deriving DecidableEq

/-- A serialized session record as `_import_sessions` reads it back (the
same five fields the export wrote). -/
structure BackupSessionEntry where
  id : Nat
  user_id : String
  session_id : String
  message_count : Nat
  started_at : ℚ
  deriving DecidableEq

/-- The loop body of `_import_memories` (backup_system.py lines 264-301):
skip entries without a bytes wrapper (`continue`, uncounted); otherwise
`INSERT … ON CONFLICT (id) DO NOTHING` — which inserts nothing when the
primary id exists and raises no error — and increment the counter either
way. -/
def importMemoryStep (acc : Nat × List MemoryRow) (entry : BackupMemoryEntry) :
    Nat × List MemoryRow :=
  match entry.content_encrypted with
  | none => acc
  | some enc =>
      let table :=
        if acc.2.any (fun r => r.id == entry.id) then acc.2
        else acc.2 ++
          [⟨entry.id, entry.user_id, entry.session_id, entry.memory_type,
            entry.scope, enc, entry.content_hash, entry.tags,
            entry.relevance_score, entry.access_count, entry.created_at,
            entry.created_at, entry.expires_at, true⟩]
      (acc.1 + 1, table)

/-- `BackupSystem._import_memories`: fold the step over the entries,
returning the reported count and the table. -/
def _import_memories (table : List MemoryRow)
    (entries : List BackupMemoryEntry) : Nat × List MemoryRow :=
  entries.foldl importMemoryStep (0, table)

/-- The loop body of `_import_sessions` (backup_system.py lines 303-323):
`INSERT … ON CONFLICT (session_id) DO NOTHING` — inserting nothing when the
session key exists — and increment the counter either way.  The inserted
row carries no context data (the column is absent from the insert). -/
def importSessionStep (acc : Nat × List SessionRow) (s : BackupSessionEntry) :
    Nat × List SessionRow :=
  let table :=
    if acc.2.any (fun r => r.session_id == s.session_id) then acc.2
    else acc.2 ++
      [⟨s.id, s.user_id, s.session_id, none, s.message_count, s.started_at,
        s.started_at, true⟩]
  (acc.1 + 1, table)

/-- `BackupSystem._import_sessions`. -/
def _import_sessions (table : List SessionRow)
    (sessions : List BackupSessionEntry) : Nat × List SessionRow :=
  sessions.foldl importSessionStep (0, table)

/-- The decompressed backup document: the two record collections the
restore path imports. -/
structure ExportDoc where
  memory_entries : List BackupMemoryEntry
  context_sessions : List BackupSessionEntry
  deriving DecidableEq

/-- A stored artifact's bytes: either a well-formed gzip of a document or
corrupted bytes. -/
inductive Artifact where
  | gz (doc : ExportDoc)
  | corrupt (n : Nat)
  deriving DecidableEq

/-- A SHA-256 checksum over artifact bytes (`checksum_bytes`,
security.py lines 81-83), as an ideal hash; `pending` is the placeholder
string the catalog row is created with. -/
inductive Checksum where
  | pending
  | sha256 (a : Artifact)
  deriving DecidableEq

/-- `checksum_bytes(data)` over an artifact. -/
def checksum_bytes (a : Artifact) : Checksum := .sha256 a

/-- `BackupSystem._decompress`: fails on corrupted bytes. -/
def _decompress : Artifact → Except SecError ExportDoc
  | .gz doc => .ok doc
  | .corrupt _ => .error .validationError

/-- The columns of a `backup_catalog` row that the restore path reads. -/
structure BackupRecord where
  id : Nat
  backup_path : String
  checksum : Checksum
  status : String
  deriving DecidableEq

/-- The errors `restore_from_backup` can raise. -/
inductive RestoreError where
  | notFoundOrNotSuccessful
  | fileNotFound
  | checksumMismatch
  | badArchive
  | missingArgument
  deriving DecidableEq

/-- The tail of `restore_from_backup` from the file read onwards
(backup_system.py lines 240-262): read the artifact, recompute the
checksum, compare against the expected one when present, decompress, then
bring memories and sessions in.  The database state rides along unchanged
on every error path. -/
def restoreFromPath (files : List (String × Artifact))
    (mems : List MemoryRow) (sessions : List SessionRow) (path : String)
    (expected_checksum : Option Checksum) :
    Except RestoreError (Nat × Nat) × (List MemoryRow × List SessionRow) :=
  match files.find? (fun f => f.1 == path) with
  | none => (.error .fileNotFound, (mems, sessions))
  | some f =>
      let compressed := f.2
      let actual_checksum := checksum_bytes compressed
      if (match expected_checksum with
          | some e => actual_checksum != e
          | none => false) then
        (.error .checksumMismatch, (mems, sessions))
      else
        match _decompress compressed with
        | .error _ => (.error .badArchive, (mems, sessions))
        | .ok doc =>
            let rm := _import_memories mems doc.memory_entries
            let rs := _import_sessions sessions doc.context_sessions
            (.ok (rm.1, rs.1), (rm.2, rs.2))

/-- `BackupSystem.restore_from_backup` (backup_system.py lines 219-262):
with a backup id, look the catalog row up and reject it — before touching
any file — unless its status is `success`, then restore from its recorded
path checking its recorded checksum; with a path only, restore without a
checksum check. -/
def restore_from_backup (catalog : List BackupRecord)
    (files : List (String × Artifact)) (mems : List MemoryRow)
    (sessions : List SessionRow) (backup_id : Option Nat)
    (backup_path : Option String) :
    Except RestoreError (Nat × Nat) × (List MemoryRow × List SessionRow) :=
  match backup_id with
  | some bid =>
      match catalog.find? (fun r => r.id == bid) with
      | none => (.error .notFoundOrNotSuccessful, (mems, sessions))
      | some row =>
          if row.status ≠ "success" then
            (.error .notFoundOrNotSuccessful, (mems, sessions))
          else
            restoreFromPath files mems sessions row.backup_path
              (some row.checksum)
  | none =>
      match backup_path with
      | some p => restoreFromPath files mems sessions p none
      | none => (.error .missingArgument, (mems, sessions))

/-! ## Claim C1 -/

/-- **C1 counterexample.**  One memory entry whose primary id already
exists in the table and one session whose session key already exists are
both skipped by `ON CONFLICT … DO NOTHING` — no row is inserted, the
tables are unchanged — yet both reported counts are 1, not 0: the counts
include conflict-skipped rows, so they do not equal the number of rows
actually inserted. -/
theorem restore_counts_conflict_skips_cex :
    _import_memories
        [⟨1, "alice", none, "general", "long_term",
          ⟨0, .userDerived "alice", "tea"⟩, .sha256 "tea", [], 1, 0, 0, 0,
          none, true⟩]
        [⟨1, "alice", none, "general", "long_term",
          some ⟨0, .userDerived "alice", "tea"⟩, .sha256 "tea", [], 1, 0, 0,
          none⟩] =
      (1, [⟨1, "alice", none, "general", "long_term",
          ⟨0, .userDerived "alice", "tea"⟩, .sha256 "tea", [], 1, 0, 0, 0,
          none, true⟩]) ∧
    _import_sessions [⟨1, "alice", "s1", none, 0, 0, 0, true⟩]
        [⟨2, "alice", "s1", 0, 0⟩] =
      (1, [⟨1, "alice", "s1", none, 0, 0, 0, true⟩]) := by
  constructor
  · rfl
  · rfl

/-- **C1 amended.**  The restore counts equal the number of rows whose
insert statement ran without raising: for memory entries, those carrying a
valid encrypted-bytes wrapper (entries without one are skipped uncounted);
for sessions, every entry.  Rows skipped by `ON CONFLICT DO NOTHING` —
an existing primary id or session key — are still counted. -/
theorem restore_import_counts (table : List MemoryRow)
    (entries : List BackupMemoryEntry) (stable : List SessionRow)
    (sessions : List BackupSessionEntry) :
    (_import_memories table entries).1 =
      (entries.filter (fun e => e.content_encrypted.isSome)).length ∧
    (_import_sessions stable sessions).1 = sessions.length := by
  have hm : ∀ (es : List BackupMemoryEntry) (acc : Nat × List MemoryRow),
      (es.foldl importMemoryStep acc).1 =
        acc.1 + (es.filter (fun e => e.content_encrypted.isSome)).length := by
    intro es
    induction es with
    | nil => intro acc; simp
    | cons e es ih =>
        intro acc
        rw [List.foldl_cons, ih]
        rcases he : e.content_encrypted with _ | enc
        · simp [importMemoryStep, he, List.filter_cons]
        · simp only [importMemoryStep, he, List.filter_cons,
            Option.isSome_some, if_true]
          simp
          omega
  have hs : ∀ (ss : List BackupSessionEntry) (acc : Nat × List SessionRow),
      (ss.foldl importSessionStep acc).1 = acc.1 + ss.length := by
    intro ss
    induction ss with
    | nil => intro acc; simp
    | cons s ss ih =>
        intro acc
        rw [List.foldl_cons, ih]
        simp only [importSessionStep, List.length_cons]
        omega
  exact ⟨(hm entries (0, table)).trans (by simp),
    (hs sessions (0, stable)).trans (by simp)⟩

/-! ## Claim C4 -/

/-- **C4.**  Restoring by backup id rejects a catalog row whose status is
not `success` before the artifact is read — the outcome does not depend on
the file store at all — and, when the row is successful but its recorded
checksum differs from the checksum recomputed over the artifact bytes, the
restore aborts with the integrity error and the database state is returned
unchanged, before any row is imported. -/
theorem restore_integrity_gate (catalog : List BackupRecord)
    (files files' : List (String × Artifact)) (mems : List MemoryRow)
    (sessions : List SessionRow) (bid : Nat) (row : BackupRecord)
    (hfind : catalog.find? (fun r => r.id == bid) = some row) :
    (row.status ≠ "success" →
      restore_from_backup catalog files mems sessions (some bid) none =
        (.error .notFoundOrNotSuccessful, (mems, sessions)) ∧
      restore_from_backup catalog files mems sessions (some bid) none =
        restore_from_backup catalog files' mems sessions (some bid) none) ∧
    (row.status = "success" →
      ∀ af, files.find? (fun f => f.1 == row.backup_path) = some af →
        row.checksum ≠ checksum_bytes af.2 →
        restore_from_backup catalog files mems sessions (some bid) none =
          (.error .checksumMismatch, (mems, sessions))) := by
  constructor
  · intro h
    constructor
    · simp [restore_from_backup, hfind, h]
    · simp [restore_from_backup, hfind, h]
  · intro h af hfindf hck
    have hbne : (checksum_bytes af.2 != row.checksum) = true := by
      rw [bne_iff_ne]
      exact Ne.symm hck
    simp [restore_from_backup, hfind, h, restoreFromPath, hfindf, hbne]

/-- Witness for C4: a `failed` catalog row is rejected; a `success` row
whose artifact bytes hash differently aborts with the integrity error. -/
theorem restore_integrity_gate_witness :
    restore_from_backup
        [⟨1, "p1", .pending, "failed"⟩,
         ⟨2, "p2", .sha256 (.gz ⟨[], []⟩), "success"⟩]
        [("p2", .corrupt 0)] [] [] (some 1) none =
      (.error .notFoundOrNotSuccessful, ([], [])) ∧
    restore_from_backup
        [⟨1, "p1", .pending, "failed"⟩,
         ⟨2, "p2", .sha256 (.gz ⟨[], []⟩), "success"⟩]
        [("p2", .corrupt 0)] [] [] (some 2) none =
      (.error .checksumMismatch, ([], [])) := by
  constructor
  · exact ((restore_integrity_gate
      [⟨1, "p1", .pending, "failed"⟩,
       ⟨2, "p2", .sha256 (.gz ⟨[], []⟩), "success"⟩]
      [("p2", .corrupt 0)] [("p2", .corrupt 0)] [] [] 1
      ⟨1, "p1", .pending, "failed"⟩ rfl).1 (by decide)).1
  · exact (restore_integrity_gate
      [⟨1, "p1", .pending, "failed"⟩,
       ⟨2, "p2", .sha256 (.gz ⟨[], []⟩), "success"⟩]
      [("p2", .corrupt 0)] [("p2", .corrupt 0)] [] [] 2
      ⟨2, "p2", .sha256 (.gz ⟨[], []⟩), "success"⟩ rfl).2 rfl
      ("p2", .corrupt 0) rfl (by decide)

/-! ## Claim C10 -/

/-- **C10.**  The exported session record is built from id, user id,
session key, message count and started timestamp only — it is invariant
under any change to the encrypted context blob, which is therefore never
recoverable from a backup artifact — and every session row the import
inserts carries no context data. -/
theorem backup_omits_session_context (r : SessionRow)
    (blob : Option (EncryptedBlob ContextData)) (stable : List SessionRow)
    (sessions : List BackupSessionEntry) :
    export_session { r with context_data_encrypted := blob } =
      export_session r ∧
    ∀ q ∈ (_import_sessions stable sessions).2,
      q ∈ stable ∨ q.context_data_encrypted = none := by
  constructor
  · rfl
  · have hstep : ∀ (acc : Nat × List SessionRow) (s : BackupSessionEntry) q,
        q ∈ (importSessionStep acc s).2 → q ∈ acc.2 ∨
          q.context_data_encrypted = none := by
      intro acc s q hq
      simp only [importSessionStep] at hq
      split at hq
      · exact Or.inl hq
      · rcases List.mem_append.mp hq with h | h
        · exact Or.inl h
        · right
          simp only [List.mem_singleton] at h
          subst h
          rfl
    have hfold : ∀ (ss : List BackupSessionEntry) (acc : Nat × List SessionRow)
        q, q ∈ (ss.foldl importSessionStep acc).2 →
          q ∈ acc.2 ∨ q.context_data_encrypted = none := by
      intro ss
      induction ss with
      | nil => intro acc q hq; exact Or.inl hq
      | cons s ss ih =>
          intro acc q hq
          rw [List.foldl_cons] at hq
          rcases ih _ q hq with h | h
          · exact hstep _ _ _ h
          · exact Or.inr h
    intro q hq
    exact hfold sessions (0, stable) q hq

/-- Witness for C10: a concrete exported record is unchanged when the
context blob is dropped, and the one session row restored from a
single-entry backup carries no context. -/
theorem backup_omits_session_context_witness :
    export_session
        { (⟨1, "alice", "s1", none, 0, 0, 0, true⟩ : SessionRow) with
          context_data_encrypted := some ⟨0, Key.master, ⟨[], "alice"⟩⟩ } =
      export_session ⟨1, "alice", "s1", none, 0, 0, 0, true⟩ ∧
    ((⟨2, "bob", "s2", none, 3, 5, 5, true⟩ : SessionRow) ∈
        ([] : List SessionRow) ∨
      (⟨2, "bob", "s2", none, 3, 5, 5, true⟩ : SessionRow).context_data_encrypted
        = none) := by
  have h := backup_omits_session_context
    (⟨1, "alice", "s1", none, 0, 0, 0, true⟩ : SessionRow)
    (some ⟨0, Key.master, ⟨[], "alice"⟩⟩) [] [⟨2, "bob", "s2", 3, 5⟩]
  exact ⟨h.1, h.2 ⟨2, "bob", "s2", none, 3, 5, 5, true⟩ (by decide)⟩

end AnalogicMemory
